import Mathlib

/-!
# Verification of the emacsclient session protocol layer

A shallow embedding of `lib-src/emacsclient.c` (POSIX configuration:
`HAVE_SOCKETS`, no `WINDOWSNT`).  Byte strings are modelled as `List Char`
(one `Char` per byte); C's NUL terminator is made explicit where the code's
behaviour depends on it.  OS services (socket calls, `stat`, `getpwnam`,
environment lookup) are passed in as explicit oracle functions, and
fallible scans return `Option` so that an out-of-bounds buffer read is an
observable outcome rather than undefined behaviour.
-/

namespace Emacsclient

/-- The NUL byte, C's string terminator. -/
def nulChar : Char := Char.ofNat 0

/-! ## Wire codec: quote_argument / unquote_argument -/

/-- Body of `quote_argument`'s loop for positions past the first: escape
space as `&_`, newline as `&n`, and `&` as `&&`; other bytes pass through.
(The `-` escape applies only at position 0 and is handled by
`quote_argument` itself.) -/
def quoteBody : List Char → List Char
  | [] => []
  | c :: rest =>
    if c = ' ' then '&' :: '_' :: quoteBody rest
    else if c = '\n' then '&' :: 'n' :: quoteBody rest
    else if c = '&' then '&' :: c :: quoteBody rest
    else c :: quoteBody rest

/-- `quote_argument` (emacsclient.c:817-852), as the pure transform it
performs on the string it sends: like `quoteBody`, but a `-` in position 0
is additionally prefixed with `&`. -/
def quote_argument : List Char → List Char
  | [] => []
  | c :: rest =>
    if c = ' ' then '&' :: '_' :: quoteBody rest
    else if c = '\n' then '&' :: 'n' :: quoteBody rest
    else if c = '&' ∨ c = '-' then '&' :: c :: quoteBody rest
    else c :: quoteBody rest

/-- The scan of `unquote_argument` (emacsclient.c:858-886) over the raw
NUL-terminated buffer.  The argument is the part of the buffer from the
read cursor `p` onward; reading past the end of the buffer yields `none`
(the out-of-bounds outcome of the total embedding).  On `&` the scan
consumes the next byte unconditionally — including the NUL terminator,
which is how a trailing unescaped `&` walks off the end of the string. -/
def unquoteGo : List Char → Option (List Char)
  | [] => none
  | c :: rest =>
    if c = nulChar then some []
    else if c = '&' then
      match rest with
      | [] => none
      | d :: rest2 =>
        let m := if d = '&' then '&'
          else if d = '_' then ' '
          else if d = 'n' then '\n'
          else if d = '-' then '-'
          else d
        (unquoteGo rest2).map fun out => m :: out
    else (unquoteGo rest).map fun out => c :: out

/-- `unquote_argument` on a NUL-free payload `s`: run the scan over the
NUL-terminated buffer holding `s`. -/
def unquote_argument (s : List Char) : Option (List Char) :=
  unquoteGo (s ++ [nulChar])

/-- A string "ends in an unescaped `&`" when the left-to-right scan of
`unquote_argument` (which consumes two bytes at each `&` and one byte
otherwise) ends by consuming a final `&` whose payload would be the NUL
terminator. -/
def endsInUnescapedAmp : List Char → Bool
  | [] => false
  | [c] => c = '&'
  | c :: d :: rest =>
    if c = '&' then endsInUnescapedAmp rest else endsInUnescapedAmp (d :: rest)

theorem unquoteGo_nul (rest : List Char) :
    unquoteGo (nulChar :: rest) = some [] := by
  rw [unquoteGo.eq_def]
  simp

theorem unquoteGo_pass (c : Char) (rest : List Char)
    (h1 : c ≠ nulChar) (h2 : c ≠ '&') :
    unquoteGo (c :: rest) = (unquoteGo rest).map fun out => c :: out := by
  rw [unquoteGo.eq_def]
  simp [h1, h2]

theorem unquoteGo_amp (d : Char) (rest : List Char) :
    unquoteGo ('&' :: d :: rest) =
      (unquoteGo rest).map fun out =>
        (if d = '&' then '&'
          else if d = '_' then ' '
          else if d = 'n' then '\n'
          else if d = '-' then '-'
          else d) :: out := by
  have h1 : ('&' : Char) ≠ nulChar := by decide
  rw [unquoteGo.eq_def]
  simp [h1]

theorem unquoteGo_quoteBody : ∀ s : List Char, (∀ c ∈ s, c ≠ nulChar) →
    unquoteGo (quoteBody s ++ [nulChar]) = some s := by
  intro s
  induction s with
  | nil =>
    intro _
    simp [quoteBody, unquoteGo_nul]
  | cons c rest ih =>
    intro h
    have hc : c ≠ nulChar := h c (by simp)
    have hrest : ∀ x ∈ rest, x ≠ nulChar := fun x hx => h x (by simp [hx])
    by_cases hsp : c = ' '
    · subst hsp
      rw [show quoteBody (' ' :: rest) = '&' :: '_' :: quoteBody rest from by
        simp [quoteBody]]
      rw [List.cons_append, List.cons_append, unquoteGo_amp, ih hrest]
      simp
    · by_cases hnl : c = '\n'
      · subst hnl
        rw [show quoteBody ('\n' :: rest) = '&' :: 'n' :: quoteBody rest from by
          simp [quoteBody]]
        rw [List.cons_append, List.cons_append, unquoteGo_amp, ih hrest]
        simp
      · by_cases hamp : c = '&'
        · subst hamp
          rw [show quoteBody ('&' :: rest) = '&' :: '&' :: quoteBody rest from by
            simp [quoteBody]]
          rw [List.cons_append, List.cons_append, unquoteGo_amp, ih hrest]
          simp
        · rw [show quoteBody (c :: rest) = c :: quoteBody rest from by
            simp [quoteBody, hsp, hnl, hamp]]
          rw [List.cons_append, unquoteGo_pass c _ hc hamp, ih hrest]
          simp

/-- C5: decoding inverts encoding.  For every byte string drawn from
printable ASCII, space and newline (the empty string included),
`unquote_argument` applied to `quote_argument`'s output returns the
original string. -/
theorem unquote_quote_roundtrip (s : List Char)
    (h : ∀ c ∈ s, (0x20 ≤ c.toNat ∧ c.toNat ≤ 0x7E) ∨ c = '\n') :
    unquote_argument (quote_argument s) = some s := by
  have hnul : ∀ c ∈ s, c ≠ nulChar := by
    intro c hc hceq
    rcases h c hc with h1 | h1
    · rw [hceq] at h1
      simp [nulChar] at h1
    · rw [hceq] at h1
      simp [nulChar] at h1
  cases s with
  | nil => simp [quote_argument, unquote_argument, unquoteGo_nul]
  | cons c rest =>
    have hc : c ≠ nulChar := hnul c (by simp)
    have hrest : ∀ x ∈ rest, x ≠ nulChar := fun x hx => hnul x (by simp [hx])
    unfold unquote_argument
    by_cases hsp : c = ' '
    · subst hsp
      rw [show quote_argument (' ' :: rest) = '&' :: '_' :: quoteBody rest from by
        simp [quote_argument]]
      rw [List.cons_append, List.cons_append, unquoteGo_amp,
        unquoteGo_quoteBody rest hrest]
      simp
    · by_cases hnl : c = '\n'
      · subst hnl
        rw [show quote_argument ('\n' :: rest) = '&' :: 'n' :: quoteBody rest from by
          simp [quote_argument]]
        rw [List.cons_append, List.cons_append, unquoteGo_amp,
          unquoteGo_quoteBody rest hrest]
        simp
      · by_cases hamp : c = '&' ∨ c = '-'
        · have hq : quote_argument (c :: rest) = '&' :: c :: quoteBody rest := by
            simp only [quote_argument, if_neg hsp, if_neg hnl, if_pos hamp]
          rw [hq, List.cons_append, List.cons_append, unquoteGo_amp,
            unquoteGo_quoteBody rest hrest]
          rcases hamp with hamp | hamp <;> subst hamp <;> simp
        · push_neg at hamp
          have hq : quote_argument (c :: rest) = c :: quoteBody rest := by
            simp only [quote_argument, if_neg hsp, if_neg hnl]
            rw [if_neg]
            push_neg
            exact hamp
          rw [hq, List.cons_append, unquoteGo_pass c _ hc hamp.1,
            unquoteGo_quoteBody rest hrest]
          simp

/-- Closed witness for the round-trip theorem at the string `"-a &b\n"`. -/
theorem unquote_quote_roundtrip_witness :
    (∀ c ∈ ('-' :: 'a' :: ' ' :: '&' :: 'b' :: '\n' :: []),
      (0x20 ≤ c.toNat ∧ c.toNat ≤ 0x7E) ∨ c = '\n') ∧
    unquote_argument (quote_argument ('-' :: 'a' :: ' ' :: '&' :: 'b' :: '\n' :: []))
      = some ('-' :: 'a' :: ' ' :: '&' :: 'b' :: '\n' :: []) :=
  ⟨by decide, unquote_quote_roundtrip _ (by decide)⟩

theorem quoteBody_no_space_newline (s : List Char) :
    ' ' ∉ quoteBody s ∧ '\n' ∉ quoteBody s := by
  induction s with
  | nil => simp [quoteBody]
  | cons c rest ih =>
    by_cases hsp : c = ' '
    · subst hsp
      rw [show quoteBody (' ' :: rest) = '&' :: '_' :: quoteBody rest from by
        simp [quoteBody]]
      simp [ih.1, ih.2]
    · by_cases hnl : c = '\n'
      · subst hnl
        rw [show quoteBody ('\n' :: rest) = '&' :: 'n' :: quoteBody rest from by
          simp [quoteBody]]
        simp [ih.1, ih.2]
      · by_cases hamp : c = '&'
        · subst hamp
          rw [show quoteBody ('&' :: rest) = '&' :: '&' :: quoteBody rest from by
            simp [quoteBody]]
          simp [ih.1, ih.2]
        · rw [show quoteBody (c :: rest) = c :: quoteBody rest from by
            simp [quoteBody, hsp, hnl, hamp]]
          constructor
          · intro hmem
            rcases List.mem_cons.mp hmem with h1 | h1
            · exact hsp h1.symm
            · exact ih.1 h1
          · intro hmem
            rcases List.mem_cons.mp hmem with h1 | h1
            · exact hnl h1.symm
            · exact ih.2 h1

/-- C10: the escaped text produced by `quote_argument` contains no space
byte and no newline byte, so every quoted argument is a single token of
the space-delimited, newline-terminated wire protocol. -/
theorem quote_argument_no_space_newline (s : List Char) :
    ' ' ∉ quote_argument s ∧ '\n' ∉ quote_argument s := by
  cases s with
  | nil => simp [quote_argument]
  | cons c rest =>
    have ih := quoteBody_no_space_newline rest
    by_cases hsp : c = ' '
    · subst hsp
      rw [show quote_argument (' ' :: rest) = '&' :: '_' :: quoteBody rest from by
        simp [quote_argument]]
      simp [ih.1, ih.2]
    · by_cases hnl : c = '\n'
      · subst hnl
        rw [show quote_argument ('\n' :: rest) = '&' :: 'n' :: quoteBody rest from by
          simp [quote_argument]]
        simp [ih.1, ih.2]
      · by_cases hamp : c = '&' ∨ c = '-'
        · have hq : quote_argument (c :: rest) = '&' :: c :: quoteBody rest := by
            simp only [quote_argument, if_neg hsp, if_neg hnl, if_pos hamp]
          rw [hq]
          constructor
          · intro hmem
            rcases List.mem_cons.mp hmem with h1 | h1
            · exact absurd h1.symm (by decide)
            · rcases List.mem_cons.mp h1 with h2 | h2
              · exact hsp h2.symm
              · exact ih.1 h2
          · intro hmem
            rcases List.mem_cons.mp hmem with h1 | h1
            · exact absurd h1.symm (by decide)
            · rcases List.mem_cons.mp h1 with h2 | h2
              · exact hnl h2.symm
              · exact ih.2 h2
        · push_neg at hamp
          have hq : quote_argument (c :: rest) = c :: quoteBody rest := by
            simp only [quote_argument, if_neg hsp, if_neg hnl]
            rw [if_neg]
            push_neg
            exact hamp
          rw [hq]
          constructor
          · intro hmem
            rcases List.mem_cons.mp hmem with h1 | h1
            · exact hsp h1.symm
            · exact ih.1 h1
          · intro hmem
            rcases List.mem_cons.mp hmem with h1 | h1
            · exact hnl h1.symm
            · exact ih.2 h1

theorem unquote_none_iff_endsInAmp : ∀ s : List Char, (∀ c ∈ s, c ≠ nulChar) →
    (unquote_argument s = none ↔ endsInUnescapedAmp s = true) := by
  intro s
  induction s using endsInUnescapedAmp.induct with
  | case1 =>
    intro _
    simp [unquote_argument, unquoteGo_nul, endsInUnescapedAmp]
  | case2 c =>
    intro h
    have hc : c ≠ nulChar := h c (by simp)
    by_cases hamp : c = '&'
    · subst hamp
      have : unquote_argument ['&'] = none := by
        unfold unquote_argument
        rw [show ('&' :: [] : List Char) ++ [nulChar] = '&' :: nulChar :: [] from rfl]
        rw [unquoteGo_amp]
        rfl
      simp [this, endsInUnescapedAmp]
    · have : unquote_argument [c] = some [c] := by
        unfold unquote_argument
        rw [List.cons_append, unquoteGo_pass c _ hc hamp, List.nil_append,
          unquoteGo_nul]
        rfl
      simp [this, endsInUnescapedAmp, hamp]
  | case3 d rest ih =>
    intro h
    have hrest : ∀ x ∈ rest, x ≠ nulChar := fun x hx => h x (by simp [hx])
    have key : unquote_argument ('&' :: d :: rest) =
        (unquote_argument rest).map fun out =>
          (if d = '&' then '&'
            else if d = '_' then ' '
            else if d = 'n' then '\n'
            else if d = '-' then '-'
            else d) :: out := by
      unfold unquote_argument
      rw [List.cons_append, List.cons_append, unquoteGo_amp]
    rw [key, show endsInUnescapedAmp ('&' :: d :: rest) = endsInUnescapedAmp rest
      from by simp [endsInUnescapedAmp]]
    rw [← ih hrest]
    cases hval : unquote_argument rest <;> simp [hval]
  | case4 c d rest hne ih =>
    intro h
    have hc : c ≠ nulChar := h c (by simp)
    have hrest : ∀ x ∈ (d :: rest), x ≠ nulChar := fun x hx => h x (by simp [hx])
    have key : unquote_argument (c :: d :: rest) =
        (unquote_argument (d :: rest)).map fun out => c :: out := by
      unfold unquote_argument
      rw [List.cons_append, unquoteGo_pass c _ hc hne]
    rw [key, show endsInUnescapedAmp (c :: d :: rest) = endsInUnescapedAmp (d :: rest)
      from by simp [endsInUnescapedAmp, hne]]
    rw [← ih hrest]
    cases hval : unquote_argument (d :: rest) <;> simp [hval]

/-- C9: on a NUL-free input, the `unquote_argument` scan stays in bounds
and produces a result exactly when the input does not end in an unescaped
`&`; when the input does end in an unescaped `&`, the scan consumes the
NUL terminator as the escape's payload and runs past the end of the
buffer, reaching the out-of-bounds outcome (`none`) of the total
embedding. -/
theorem unquote_argument_inbounds_iff (s : List Char)
    (h : ∀ c ∈ s, c ≠ nulChar) :
    ((∃ r, unquote_argument s = some r) ↔ endsInUnescapedAmp s = false) ∧
    (unquote_argument s = none ↔ endsInUnescapedAmp s = true) := by
  have base := unquote_none_iff_endsInAmp s h
  refine ⟨?_, base⟩
  constructor
  · intro hr
    rcases hr with ⟨r, hr⟩
    by_contra hfalse
    simp only [Bool.not_eq_false] at hfalse
    rw [← base] at hfalse
    rw [hr] at hfalse
    exact Option.noConfusion hfalse
  · intro hfalse
    cases hval : unquote_argument s with
    | none =>
      rw [base] at hval
      rw [hval] at hfalse
      exact absurd hfalse (by simp)
    | some r => exact ⟨r, rfl⟩

/-- Closed witness for C9: the single-byte string `"&"` ends in an
unescaped `&` and drives the scan out of bounds. -/
theorem unquote_argument_inbounds_iff_witness :
    (∀ c ∈ ('&' :: []), c ≠ nulChar) ∧
    (unquote_argument ('&' :: []) = none ↔ endsInUnescapedAmp ('&' :: []) = true) ∧
    unquote_argument ('&' :: []) = none :=
  ⟨by decide, (unquote_argument_inbounds_iff ('&' :: []) (by decide)).2, by decide⟩

/-! ## Transport: the buffered send path (send_to_emacs) -/

/-- Capacity of the static accumulation buffer (`SEND_BUFFER_SIZE`). -/
def SEND_BUFFER_SIZE : Nat := 4096

/-- Outcome of a run of `send_to_emacs`'s loop: the new buffer contents
and the list of attempted socket writes, or the fatal branch taken when
`send` reports an error (`fail ()`), or fuel exhaustion (the C loop can
spin when `send` makes no progress on a full buffer). -/
inductive SendOutcome where
  | ok (buf : List Char) (writes : List (List Char))
  | fatal (writes : List (List Char))
  | outOfFuel
  deriving DecidableEq

/-- The attempted socket writes an outcome records. -/
def SendOutcome.writesList : SendOutcome → List (List Char)
  | .ok _ w => w
  | .fatal w => w
  | .outOfFuel => []

/-- The loop of `send_to_emacs` (emacsclient.c:774-809).  `sendFn` is the
`send` system call: given the bytes passed to it, it returns the number
of bytes accepted, negative for an error.  `buf` is the current contents
of `send_buffer` (its length is `sblen`), `data` the remaining input,
`writes` the attempted writes so far.  Each iteration copies
`min dlen (SEND_BUFFER_SIZE - sblen)` bytes in, and flushes when the
buffer is full or its last byte is a newline; a short write keeps the
unsent remainder at the start of the buffer. -/
def sendLoop (sendFn : List Char → Int) :
    Nat → List Char → List Char → List (List Char) → SendOutcome
  | _, buf, [], writes => .ok buf writes
  | 0, _, _ :: _, _ => .outOfFuel
  | fuel + 1, buf, d :: ds, writes =>
    let data := d :: ds
    let part := min data.length (SEND_BUFFER_SIZE - buf.length)
    let buf1 := buf ++ data.take part
    if buf1.length = SEND_BUFFER_SIZE ∨ buf1.getLast? = some '\n' then
      let sent := sendFn buf1
      if sent < 0 then .fatal (writes ++ [buf1])
      else sendLoop sendFn fuel (buf1.drop sent.toNat) (data.drop part)
        (writes ++ [buf1])
    else sendLoop sendFn fuel buf1 (data.drop part) writes

/-- One call to `send_to_emacs s data` starting from buffer contents
`buf`.  The fuel `data.length + 1` covers every run in which each flush
makes progress. -/
def send_to_emacs (sendFn : List Char → Int) (buf data : List Char) :
    SendOutcome :=
  sendLoop sendFn (data.length + 1) buf data []

/-- A sequence of `send_to_emacs` calls, threading the accumulation
buffer through and collecting all attempted writes. -/
def sendMany (sendFn : List Char → Int) :
    List (List Char) → List Char → SendOutcome
  | [], buf => .ok buf []
  | f :: rest, buf =>
    match send_to_emacs sendFn buf f with
    | .ok buf1 w =>
      match sendMany sendFn rest buf1 with
      | .ok buf2 w2 => .ok buf2 (w ++ w2)
      | .fatal w2 => .fatal (w ++ w2)
      | .outOfFuel => .outOfFuel
    | .fatal w => .fatal w
    | .outOfFuel => .outOfFuel

theorem send_to_emacs_no_flush (sendFn : List Char → Int)
    (buf f : List Char) (hlen : buf.length + f.length < SEND_BUFFER_SIZE)
    (hlast : f.getLast? ≠ some '\n') :
    send_to_emacs sendFn buf f = .ok (buf ++ f) [] := by
  cases f with
  | nil => simp [send_to_emacs, sendLoop]
  | cons d ds =>
    unfold send_to_emacs sendLoop
    have hmin : min (d :: ds).length (SEND_BUFFER_SIZE - buf.length)
        = (d :: ds).length := by
      simp [SEND_BUFFER_SIZE] at hlen ⊢
      omega
    simp only [hmin, List.take_length, List.drop_length]
    rw [if_neg]
    · exact rfl
    · push_neg
      constructor
      · simp [SEND_BUFFER_SIZE] at hlen ⊢
        omega
      · rw [List.getLast?_append_cons]
        exact hlast

theorem sendMany_no_flush (sendFn : List Char → Int) :
    ∀ (frags : List (List Char)) (buf : List Char),
    buf.length + frags.flatten.length < SEND_BUFFER_SIZE →
    (∀ f ∈ frags, f.getLast? ≠ some '\n') →
    sendMany sendFn frags buf = .ok (buf ++ frags.flatten) [] := by
  intro frags
  induction frags with
  | nil =>
    intro buf _ _
    simp [sendMany]
  | cons f rest ih =>
    intro buf hlen hlast
    have hf : f.getLast? ≠ some '\n' := hlast f (by simp)
    have hflen : buf.length + f.length < SEND_BUFFER_SIZE := by
      simp at hlen
      omega
    have hrest : ∀ g ∈ rest, g.getLast? ≠ some '\n' :=
      fun g hg => hlast g (by simp [hg])
    have hrlen : (buf ++ f).length + rest.flatten.length < SEND_BUFFER_SIZE := by
      simp at hlen ⊢
      omega
    unfold sendMany
    rw [send_to_emacs_no_flush sendFn buf f hflen hf]
    dsimp only
    rw [ih (buf ++ f) hrlen hrest]
    simp

theorem send_to_emacs_flush (sendFn : List Char → Int)
    (buf data : List Char) (hne : data ≠ [])
    (hlen : buf.length + data.length ≤ SEND_BUFFER_SIZE)
    (hlast : data.getLast? = some '\n') :
    (send_to_emacs sendFn buf data).writesList = [buf ++ data] := by
  cases data with
  | nil => exact absurd rfl hne
  | cons d ds =>
    unfold send_to_emacs sendLoop
    have hmin : min (d :: ds).length (SEND_BUFFER_SIZE - buf.length)
        = (d :: ds).length := by
      simp [SEND_BUFFER_SIZE] at hlen ⊢
      omega
    simp only [hmin, List.take_length, List.drop_length]
    rw [if_pos]
    · by_cases hneg : sendFn (buf ++ d :: ds) < 0
      · rw [if_pos hneg]
        simp [SendOutcome.writesList]
      · rw [if_neg hneg]
        simp [sendLoop, SendOutcome.writesList]
    · right
      rw [List.getLast?_append_cons]
      exact hlast

/-- C6: buffered-send flush boundary.  Starting from an empty buffer, a
sequence of sends whose accumulated bytes stay strictly under the
4096-byte capacity and none of which ends in a newline performs no socket
write and leaves all bytes accumulated; a subsequent send that ends in a
newline and still fits the buffer performs exactly one write, whose
content is all previously buffered bytes followed by the new fragment. -/
theorem send_to_emacs_flush_boundary (sendFn : List Char → Int)
    (frags : List (List Char)) (data : List Char)
    (h1 : ∀ f ∈ frags, f.getLast? ≠ some '\n')
    (h2 : frags.flatten.length < SEND_BUFFER_SIZE)
    (h3 : data ≠ [])
    (h4 : data.getLast? = some '\n')
    (h5 : frags.flatten.length + data.length ≤ SEND_BUFFER_SIZE) :
    sendMany sendFn frags [] = .ok frags.flatten [] ∧
    (send_to_emacs sendFn frags.flatten data).writesList
      = [frags.flatten ++ data] := by
  constructor
  · have := sendMany_no_flush sendFn frags [] (by simpa using h2) h1
    simpa using this
  · exact send_to_emacs_flush sendFn frags.flatten data h3 h5 h4

/-- Closed witness for C6: two fragments `"-dir "` and `"/d "` buffer
without a write, and the final `"\n"` flushes exactly `"-dir /d \n"`. -/
theorem send_to_emacs_flush_boundary_witness :
    ((∀ f ∈ ["-dir ".toList, "/d ".toList], f.getLast? ≠ some '\n') ∧
      (["-dir ".toList, "/d ".toList] : List (List Char)).flatten.length
        < SEND_BUFFER_SIZE ∧
      ("\n".toList : List Char) ≠ [] ∧
      ("\n".toList : List Char).getLast? = some '\n' ∧
      (["-dir ".toList, "/d ".toList] : List (List Char)).flatten.length
        + ("\n".toList : List Char).length ≤ SEND_BUFFER_SIZE) ∧
    sendMany (fun l => Int.ofNat l.length) ["-dir ".toList, "/d ".toList] []
      = .ok ("-dir /d ".toList) [] ∧
    (send_to_emacs (fun l => Int.ofNat l.length) ("-dir /d ".toList) "\n".toList).writesList
      = ["-dir /d \n".toList] := by
  refine ⟨by decide, ?_⟩
  have := send_to_emacs_flush_boundary (fun l => Int.ofNat l.length)
    ["-dir ".toList, "/d ".toList] "\n".toList
    (by decide) (by decide) (by decide) (by decide) (by decide)
  simpa using this

/-! ## Endpoint resolver: get_server_config, set_tcp_socket,
socket_status, set_local_socket, set_socket -/

/-- Fixed length of the raw authentication token (`AUTH_KEY_LENGTH`). -/
def AUTH_KEY_LENGTH : Nat := 64

/-- Result of `get_server_config` (emacsclient.c:944-1007): the file could
not be opened (the function returns false), one of the two fatal
`exit (EXIT_FAILURE)` branches, or success carrying the host part of the
first line, the port text after the `:`, and the 64 raw token bytes.
(The `inet_addr`/`atoi`/`htons` conversions of host and port are opaque
OS services and are kept as the raw text they are applied to.) -/
inductive GSCResult where
  | noConfig
  | exitInvalid
  | exitNoAuth
  | ok (host : List Char) (port : List Char) (auth : List Char)
  deriving DecidableEq

/-- `fgets (dotted, 32, config)` on the remaining file bytes: `none` at
end of file; otherwise the string read (at most 31 bytes, stopping after
the first newline) and the bytes left in the file. -/
def fgets31 (bytes : List Char) : Option (List Char × List Char) :=
  if bytes = [] then none
  else
    let upto := bytes.takeWhile (· ≠ '\n')
    if upto.length < 31 then
      if upto.length < bytes.length then
        some (upto ++ ['\n'], bytes.drop (upto.length + 1))
      else some (upto, [])
    else some (bytes.take 31, bytes.drop 31)

/-- `get_server_config` over the bytes of the server file (`none` when no
candidate file could be opened).  The first `fgets` line must contain a
`:`; then exactly `AUTH_KEY_LENGTH` further bytes must be readable. -/
def get_server_config (contents : Option (List Char)) : GSCResult :=
  match contents with
  | none => .noConfig
  | some bytes =>
    match fgets31 bytes with
    | none => .exitInvalid
    | some (dotted, rest) =>
      if ':' ∈ dotted then
        if AUTH_KEY_LENGTH ≤ rest.length then
          .ok (dotted.takeWhile (· ≠ ':')) ((dotted.dropWhile (· ≠ ':')).tail)
            (rest.take AUTH_KEY_LENGTH)
        else .exitNoAuth
      else .exitInvalid

/-- Result of `set_tcp_socket` (emacsclient.c:1009-1058). -/
inductive TcpSocketResult where
  | invalidSock
  | exitInvalid
  | exitNoAuth
  | connected (authPreamble : List Char)
  deriving DecidableEq

/-- `set_tcp_socket`: a failed `get_server_config` yields
`INVALID_SOCKET`; its two fatal branches exit; otherwise the `socket` and
`connect` calls (success abstracted by the two oracles) may yield
`INVALID_SOCKET`, and on success the authentication preamble
`"-auth " ++ token ++ " "` is the first content sent. -/
def set_tcp_socket (contents : Option (List Char))
    (socketOk connectOk : Bool) : TcpSocketResult :=
  match get_server_config contents with
  | .noConfig => .invalidSock
  | .exitInvalid => .exitInvalid
  | .exitNoAuth => .exitNoAuth
  | .ok _ _ auth =>
    if socketOk then
      if connectOk then .connected ("-auth ".toList ++ auth ++ " ".toList)
      else .invalidSock
    else .invalidSock

/-- `socket_status` (emacsclient.c:1121-1133): 2 when the path cannot be
`stat`ed, 1 when the file is not owned by the effective user, 0 on
success.  `statUid` is the `stat` oracle, returning the owner uid of the
path or `none` when `stat` fails. -/
def socket_status (statUid : String → Option Nat) (euid : Nat)
    (name : String) : Nat :=
  match statUid name with
  | none => 2
  | some uid => if uid ≠ euid then 1 else 0

/-- Size of `sockaddr_un.sun_path` on the modelled (Linux) platform. -/
def sun_path_size : Nat := 108

/-- Outcome of the path-resolution part of `set_local_socket`
(emacsclient.c:1234-1350): either the fatal socket-name-too-long branch,
or a final `socket_status` result together with the path it refers to and
the list of paths passed to `stat`, in order. -/
inductive LocalResolve where
  | fatalNameTooLong (path : String)
  | resolved (status : Nat) (path : String) (statted : List String)
  deriving DecidableEq

/-- The path synthesized under the temporary directory for a bare socket
name: `<tmpdir>/emacs<uid>/<name>`. -/
def tmpSocketPath (tmpdir : String) (uid : Nat) (name : String) : String :=
  tmpdir ++ "/emacs" ++ toString uid ++ "/" ++ name

/-- Path resolution of `set_local_socket`: a name without `/` or `\\` is
synthesized under `TMPDIR` (default `/tmp`) in the per-UID subdirectory;
a name with a separator is used verbatim (and then `tmpdir` stays NULL).
After the first `stat`, whenever its status is nonzero *and* `tmpdir` is
set, the uid resolved from `LOGNAME` (or else `USER`) via `getpwnam` — if
it exists and differs from the effective uid — selects an alternate
per-UID path which is `stat`ed in place of the first. -/
def set_local_socket_resolve (statUid : String → Option Nat)
    (getpwnam : String → Option Nat) (euid : Nat)
    (tmpdirEnv logname user : Option String)
    (local_socket_name : String) : LocalResolve :=
  if '/' ∈ local_socket_name.toList ∨ '\\' ∈ local_socket_name.toList then
    if sun_path_size ≤ local_socket_name.length then
      .fatalNameTooLong local_socket_name
    else
      .resolved (socket_status statUid euid local_socket_name)
        local_socket_name [local_socket_name]
  else
    let tmpdir := tmpdirEnv.getD "/tmp"
    let path0 := tmpSocketPath tmpdir euid local_socket_name
    if sun_path_size ≤ path0.length then .fatalNameTooLong path0
    else
      let st1 := socket_status statUid euid path0
      if st1 ≠ 0 then
        match logname.orElse fun _ => user with
        | none => .resolved st1 path0 [path0]
        | some uname =>
          match getpwnam uname with
          | none => .resolved st1 path0 [path0]
          | some pwuid =>
            if pwuid ≠ euid then
              let path2 := tmpSocketPath tmpdir pwuid local_socket_name
              if sun_path_size ≤ path2.length then .fatalNameTooLong path2
              else .resolved (socket_status statUid euid path2) path2
                [path0, path2]
            else .resolved st1 path0 [path0]
      else .resolved st1 path0 [path0]

/-- An endpoint-resolution attempt made by `set_socket`. -/
inductive EndpointAttempt where
  | localA (name : String)
  | tcpA (file : String)
  deriving DecidableEq

/-- Result of `set_socket` (emacsclient.c:1363-1423). -/
inductive SetSocketResult where
  | connected (a : EndpointAttempt)
  | invalidSocket
  | exitFailure
  deriving DecidableEq

/-- `set_socket`: the configured socket name (flag, else the
`EMACS_SOCKET_NAME` variable) is tried as a local socket; failing that
path exits (or returns the invalid socket under `no_exit_if_error`)
without ever trying TCP.  Only with no socket name configured is the
server file (flag, else `EMACS_SERVER_FILE`) tried over TCP, with the
same failure handling.  With neither configured, the implicit local
socket `"server"` is tried and only then the implicit TCP server file
`"server"`.  `localOk`/`tcpOk` abstract whether `set_local_socket` /
`set_tcp_socket` return a valid socket for a given name.  The result is
paired with the list of attempts made, in order. -/
def set_socket (no_exit_if_error : Bool)
    (socket_name env_socket_name server_file env_server_file : Option String)
    (localOk tcpOk : String → Bool) :
    SetSocketResult × List EndpointAttempt :=
  match socket_name.orElse fun _ => env_socket_name with
  | some n =>
    if localOk n then (.connected (.localA n), [.localA n])
    else if no_exit_if_error then (.invalidSocket, [.localA n])
    else (.exitFailure, [.localA n])
  | none =>
    match server_file.orElse fun _ => env_server_file with
    | some f =>
      if tcpOk f then (.connected (.tcpA f), [.tcpA f])
      else if no_exit_if_error then (.invalidSocket, [.tcpA f])
      else (.exitFailure, [.tcpA f])
    | none =>
      if localOk "server" then
        (.connected (.localA "server"), [.localA "server"])
      else if tcpOk "server" then
        (.connected (.tcpA "server"), [.localA "server", .tcpA "server"])
      else if no_exit_if_error then
        (.invalidSocket, [.localA "server", .tcpA "server"])
      else (.exitFailure, [.localA "server", .tcpA "server"])

/-- C1 counterexample: with both a local-socket name and a server file
configured and the local socket inaccessible, `set_socket` exits with
failure after the single local attempt — the TCP server file is never
attempted, even though a TCP attempt would succeed. -/
theorem set_socket_no_tcp_fallback_cex :
    set_socket false (some "sock") none (some "srv") none
      (fun _ => false) (fun _ => true)
      = (.exitFailure, [.localA "sock"]) ∧
    EndpointAttempt.tcpA "srv" ∉
      (set_socket false (some "sock") none (some "srv") none
        (fun _ => false) (fun _ => true)).2 := by
  constructor
  · rfl
  · intro hmem
    simp [set_socket] at hmem

/-- C1 as amended: when a local-socket name is configured (explicitly or
through the environment), `set_socket` attempts only that local socket:
its result is independent of the TCP oracle, the attempt list is exactly
the one local attempt, and failure exits (or yields the invalid socket
under `no_exit_if_error`) instead of falling back to TCP.  The
local-then-TCP fallback exists only in the implicit case with neither a
socket name nor a server file configured. -/
theorem set_socket_priority (no_exit : Bool)
    (sn esn sf esf : Option String) (localOk tcpOk tcpOk2 : String → Bool) :
    (∀ n, (sn.orElse fun _ => esn) = some n →
      (set_socket no_exit sn esn sf esf localOk tcpOk).2 = [.localA n] ∧
      set_socket no_exit sn esn sf esf localOk tcpOk
        = set_socket no_exit sn esn sf esf localOk tcpOk2 ∧
      (localOk n = false →
        (set_socket no_exit sn esn sf esf localOk tcpOk).1
          = if no_exit then .invalidSocket else .exitFailure)) ∧
    ((sn.orElse fun _ => esn) = none → (sf.orElse fun _ => esf) = none →
      localOk "server" = false → tcpOk "server" = true →
      set_socket no_exit sn esn sf esf localOk tcpOk
        = (.connected (.tcpA "server"), [.localA "server", .tcpA "server"])) := by
  constructor
  · intro n hn
    refine ⟨?_, ?_, ?_⟩
    · unfold set_socket
      rw [hn]
      by_cases h : localOk n
      · simp [h]
      · by_cases h2 : no_exit <;> simp [h, h2]
    · unfold set_socket
      rw [hn]
    · intro hfail
      unfold set_socket
      rw [hn]
      dsimp only
      rw [hfail]
      by_cases h2 : no_exit <;> simp [h2]
  · intro h1 h2 h3 h4
    unfold set_socket
    rw [h1, h2, h3, h4]
    simp

/-- Closed witness for the amended C1 theorem. -/
theorem set_socket_priority_witness :
    ((some "sock" : Option String).orElse (fun _ => none) = some "sock" ∧
      (set_socket true (some "sock") none (some "srv") none
        (fun _ => false) (fun _ => true)).2 = [.localA "sock"] ∧
      (set_socket true (some "sock") none (some "srv") none
        (fun _ => false) (fun _ => true)).1 = .invalidSocket) ∧
    set_socket true none none none none (fun _ => false) (fun _ => true)
      = (.connected (.tcpA "server"), [.localA "server", .tcpA "server"]) := by
  have h := set_socket_priority true (some "sock") none (some "srv") none
    (fun _ => false) (fun _ => true) (fun _ => false)
  have h1 := (h.1 "sock" rfl).1
  have h3 := (h.1 "sock" rfl).2.2 rfl
  have h4 := set_socket_priority true none none none none
    (fun _ => false) (fun _ => true) (fun _ => false)
  exact ⟨⟨rfl, h1, h3⟩, h4.2 rfl rfl rfl rfl⟩

/-- C3 counterexample: a missing server file is not fatal.
`get_server_config` returns false (`noConfig`) instead of exiting, and
`set_tcp_socket` then reports `INVALID_SOCKET` — an outcome the caller is
free to retry (the daemon auto-start path calls `set_socket` again) —
rather than either of the two fatal exit branches. -/
theorem get_server_config_missing_file_cex :
    get_server_config none = .noConfig ∧
    set_tcp_socket none true true = .invalidSock ∧
    (TcpSocketResult.invalidSock ≠ .exitInvalid ∧
      TcpSocketResult.invalidSock ≠ .exitNoAuth) := by
  refine ⟨rfl, rfl, by decide⟩

/-- C3 as amended: of the three parse-failure cases only two are fatal —
an empty file or a first line without `:` exits with "invalid
configuration info", and a short read of the 64-byte token exits with
"cannot read authentication info"; a server file that cannot be opened at
all makes `get_server_config` return false, which `set_tcp_socket`
surfaces as the (retryable) invalid socket. -/
theorem get_server_config_failures (bytes dotted rest : List Char) :
    (get_server_config none = .noConfig ∧
      set_tcp_socket none true true = .invalidSock) ∧
    (fgets31 bytes = none → get_server_config (some bytes) = .exitInvalid) ∧
    (fgets31 bytes = some (dotted, rest) → ':' ∉ dotted →
      get_server_config (some bytes) = .exitInvalid) ∧
    (fgets31 bytes = some (dotted, rest) → ':' ∈ dotted →
      rest.length < AUTH_KEY_LENGTH →
      get_server_config (some bytes) = .exitNoAuth) := by
  refine ⟨⟨rfl, rfl⟩, ?_, ?_, ?_⟩
  · intro h
    simp [get_server_config, h]
  · intro h hcolon
    simp [get_server_config, h, hcolon]
  · intro h hcolon hshort
    simp [get_server_config, h, hcolon]
    omega

/-- Closed witness for the amended C3 theorem: a server file whose first
line is `"127.0.0.1:50000"` but whose token block is only 3 bytes long
takes the fatal "cannot read authentication info" branch. -/
theorem get_server_config_failures_witness :
    fgets31 "127.0.0.1:50000\nabc".toList
      = some ("127.0.0.1:50000\n".toList, "abc".toList) ∧
    (':' ∈ "127.0.0.1:50000\n".toList) ∧
    ("abc".toList : List Char).length < AUTH_KEY_LENGTH ∧
    get_server_config (some "127.0.0.1:50000\nabc".toList) = .exitNoAuth := by
  refine ⟨by decide, by decide, by decide, ?_⟩
  exact (get_server_config_failures "127.0.0.1:50000\nabc".toList
    "127.0.0.1:50000\n".toList "abc".toList).2.2.2 (by decide) (by decide)
    (by decide)

/-- C4 counterexample: the LOGNAME-based secondary lookup is not limited
to the "wrong owner" status.  Here the first `stat` fails outright
(status 2, not 1), yet with `LOGNAME` resolving to a different uid the
alternate per-UID path is still `stat`ed. -/
theorem set_local_socket_fallback_cex :
    socket_status (fun _ => none) 1000 "/tmp/emacs1000/server" = 2 ∧
    set_local_socket_resolve (fun _ => none)
      (fun u => if u = "alice" then some 1001 else none) 1000
      none (some "alice") none "server"
      = .resolved 2 "/tmp/emacs1001/server"
        ["/tmp/emacs1000/server", "/tmp/emacs1001/server"] := by
  constructor
  · rfl
  · rfl

/-- C4 as amended: the secondary lookup — resolving a uid from
`LOGNAME`/`USER` via `getpwnam` and retrying the stat on that uid's
socket path — is attempted whenever the first `socket_status` is nonzero
(stat failure *or* wrong owner), the socket name is a bare component (so
the path was synthesized under the temporary directory), and the account
lookup yields a uid different from the effective uid; and it is never
attempted when the socket name contains a path separator, even on a
wrong-owner status. -/
theorem set_local_socket_fallback (statUid : String → Option Nat)
    (getpwnam : String → Option Nat) (euid pwuid : Nat)
    (tmpdirEnv logname user : Option String) (name uname : String) :
    (('/' ∉ name.toList ∧ '\\' ∉ name.toList) →
      (logname.orElse fun _ => user) = some uname →
      getpwnam uname = some pwuid → pwuid ≠ euid →
      socket_status statUid euid
        (tmpSocketPath (tmpdirEnv.getD "/tmp") euid name) ≠ 0 →
      (tmpSocketPath (tmpdirEnv.getD "/tmp") euid name).length < sun_path_size →
      (tmpSocketPath (tmpdirEnv.getD "/tmp") pwuid name).length < sun_path_size →
      set_local_socket_resolve statUid getpwnam euid tmpdirEnv logname user name
        = .resolved
          (socket_status statUid euid
            (tmpSocketPath (tmpdirEnv.getD "/tmp") pwuid name))
          (tmpSocketPath (tmpdirEnv.getD "/tmp") pwuid name)
          [tmpSocketPath (tmpdirEnv.getD "/tmp") euid name,
            tmpSocketPath (tmpdirEnv.getD "/tmp") pwuid name]) ∧
    ('/' ∈ name.toList → name.length < sun_path_size →
      set_local_socket_resolve statUid getpwnam euid tmpdirEnv logname user name
        = .resolved (socket_status statUid euid name) name [name]) := by
  constructor
  · intro hplain hlog hpw hne hst hlen1 hlen2
    unfold set_local_socket_resolve
    rw [if_neg (not_or.mpr ⟨hplain.1, hplain.2⟩)]
    rw [if_neg (by omega), if_pos hst, hlog]
    dsimp only
    rw [hpw]
    dsimp only
    rw [if_pos hne, if_neg (by omega)]
  · intro hsep hlen
    unfold set_local_socket_resolve
    rw [if_pos (Or.inl hsep)]
    rw [if_neg (by omega)]

/-- Closed witness for the amended C4 theorem: a wrong-owner first stat
(`status 1`) under `/tmp` triggers the second stat, while the verbatim
path `"dir/sock"` is statted once even though it reports wrong owner. -/
theorem set_local_socket_fallback_witness :
    set_local_socket_resolve (fun _ => some 1001)
      (fun u => if u = "bob" then some 1001 else none) 1000
      none none (some "bob") "server"
      = .resolved (socket_status (fun _ => some 1001) 1000
          (tmpSocketPath "/tmp" 1001 "server"))
        (tmpSocketPath "/tmp" 1001 "server")
        [tmpSocketPath "/tmp" 1000 "server", tmpSocketPath "/tmp" 1001 "server"] ∧
    set_local_socket_resolve (fun _ => some 1001)
      (fun u => if u = "bob" then some 1001 else none) 1000
      none none (some "bob") "dir/sock"
      = .resolved (socket_status (fun _ => some 1001) 1000 "dir/sock")
        "dir/sock" ["dir/sock"] := by
  have h := set_local_socket_fallback (fun _ => some 1001)
    (fun u => if u = "bob" then some 1001 else none) 1000 1001
    none none (some "bob") "server" "bob"
  have h2 := set_local_socket_fallback (fun _ => some 1001)
    (fun u => if u = "bob" then some 1001 else none) 1000 1001
    none none (some "bob") "dir/sock" "bob"
  exact ⟨h.1 ⟨by decide, by decide⟩ rfl rfl (by decide) (by decide)
    (by decide) (by decide), h2.2 (by decide) (by decide)⟩

/-! ## Session controller: the command stream built by main
(emacsclient.c:1706-1844) and the receive/dispatch loop
(emacsclient.c:1856-1955) -/

/-- The immutable part of the invocation: the already-parsed intent that
`main` reads but never writes after `decode_options`.  `ttyAvail` is the
`find_tty` oracle — the tty name and `TERM` type when a usable terminal
exists, `none` otherwise.  `stdinLines` are the lines `fgets` would read
in the interactive `--eval` mode. -/
structure Invocation where
  args : List (List Char)
  tramp_prefix : Option (List Char)
  parent_id : Option (List Char)
  frame_parameters : Option (List Char)
  eval : Bool
  create_frame : Bool
  suppress_output : Bool
  cwd : List Char
  env : List (List Char)
  ttyAvail : Option (List Char × List Char)
  stdinLines : List (List Char)
  deriving DecidableEq

/-- The mutable state threaded through `main`'s send/receive loop: the
retry flags, the "skip leading newline" output cursor `skiplf`, the exit
status accumulator, the remote pid, and the accumulated bytes written to
stdout and stderr (plus a count of self-delivered `SIGSTOP`s). -/
structure SessionState where
  nowait : Bool
  tty : Bool
  display : Option (List Char)
  alt_display : Option (List Char)
  skiplf : Bool
  exitFailure : Bool
  emacs_pid : Int
  stdoutS : List Char
  stderrS : List Char
  suspends : Nat
  deriving DecidableEq

/-- `strprefix` (emacsclient.c:1062-1066). -/
def strprefix (pre s : List Char) : Bool :=
  pre.isPrefixOf s

/-- A `+line[:col]` positional argument: a leading `+` after which the
`do c = *++p; while (isdigit (c) || c == ':')` scan reaches the NUL. -/
def isPosArg : List Char → Bool
  | '+' :: rest => rest.all fun c => c.isDigit || c == ':'
  | _ => false

/-- `file_name_absolute_p` (emacsclient.c:890-912, POSIX part): the name
starts with `/`. -/
def file_name_absolute_p : List Char → Bool
  | '/' :: _ => true
  | _ => false

/-- The digit-consuming part of `strtol`. -/
def digitsVal : List Char → Nat → Nat
  | c :: rest, acc =>
    if c.isDigit then digitsVal rest (acc * 10 + (c.toNat - 48)) else acc
  | [], acc => acc

/-- `strtol (s, NULL, 10)`: skip blanks, optional sign, then digits. -/
def strtol10 (s : List Char) : Int :=
  let s1 := s.dropWhile fun c => c = ' ' ∨ c = '\t'
  match s1 with
  | '-' :: rest => - Int.ofNat (digitsVal rest 0)
  | '+' :: rest => Int.ofNat (digitsVal rest 0)
  | _ => Int.ofNat (digitsVal s1 0)

/-- The wire text sent for one positional argument (the body of the
`for (i = optind; ...)` loop at emacsclient.c:1777-1831). -/
def argToken (inv : Invocation) (a : List Char) : List Char :=
  if inv.eval then "-eval ".toList ++ quote_argument a ++ " ".toList
  else if isPosArg a then
    "-position ".toList ++ quote_argument a ++ " ".toList
  else
    "-file ".toList
      ++ (match inv.tramp_prefix with
        | some tp => if file_name_absolute_p a then quote_argument tp else []
        | none => [])
      ++ quote_argument a ++ " ".toList

/-- The command stream built from the `retry:` label to the final
newline (emacsclient.c:1724-1844), as a function of the current retry
state.  `none` models the fatal `fail ()` inside `find_tty` when a tty
is required (`st.tty`, so `noabort` is false) but none is available. -/
def buildRetry (inv : Invocation) (st : SessionState) : Option (List Char) :=
  let ttyPart : Option (List Char) :=
    if inv.create_frame ∨ ¬inv.eval then
      match inv.ttyAvail with
      | some (tn, tt) =>
        some ("-tty ".toList ++ quote_argument tn ++ " ".toList
          ++ quote_argument tt ++ " ".toList)
      | none => if st.tty then none else some []
    else some []
  match ttyPart with
  | none => none
  | some ttyBytes =>
    some ((if st.nowait then "-nowait ".toList else [])
      ++ (if ¬inv.create_frame then "-current-frame ".toList else [])
      ++ (match st.display with
        | some d => "-display ".toList ++ quote_argument d ++ " ".toList
        | none => [])
      ++ (match inv.parent_id with
        | some pid => "-parent-id ".toList ++ quote_argument pid ++ " ".toList
        | none => [])
      ++ (match inv.frame_parameters with
        | some fp =>
          if inv.create_frame then
            "-frame-parameters ".toList ++ quote_argument fp ++ " ".toList
          else []
        | none => [])
      ++ ttyBytes
      ++ (if inv.create_frame ∧ ¬st.tty then "-window-system ".toList else [])
      ++ (if inv.args ≠ [] then (inv.args.map (argToken inv)).flatten
        else if inv.eval then
          (inv.stdinLines.map fun l => "-eval ".toList ++ quote_argument l).flatten
            ++ " ".toList
        else [])
      ++ "\n".toList)

/-- The part of the command stream sent once, before the `retry:` label
(emacsclient.c:1706-1722): the `-env` directives when a new frame is
requested, and the mandatory `-dir` directive. -/
def buildPrologue (inv : Invocation) : List Char :=
  (if inv.create_frame then
    (inv.env.map fun e => "-env ".toList ++ quote_argument e ++ " ".toList).flatten
  else [])
    ++ "-dir ".toList
    ++ (match inv.tramp_prefix with
      | some tp => quote_argument tp
      | none => [])
    ++ quote_argument inv.cwd
    ++ "/ ".toList

/-- The full command stream of the first attempt: prologue followed by
the per-attempt portion. -/
def initialStream (inv : Invocation) (st : SessionState) :
    Option (List Char) :=
  (buildRetry inv st).map fun b => buildPrologue inv ++ b

/-- The `-window-system-unsupported` transition
(emacsclient.c:1886-1903): switch to the alternate display and clear it
if one exists, else force terminal mode and clear no-wait. -/
def handleWSU (st : SessionState) : SessionState :=
  match st.alt_display with
  | some d => { st with display := some d, alt_display := none }
  | none => { st with nowait := false, tty := true }

/-- `if (str[0]) skiplf = str[strlen (str) - 1] == '\n';` — the output
cursor is updated only by nonempty decoded text. -/
def updateSkiplf (old : Bool) (str : List Char) : Bool :=
  match str.getLast? with
  | none => old
  | some c => c = '\n'

/-- Result of dispatching one received line: continue with a new state,
jump to `retry:`, or the out-of-bounds outcome of an `unquote_argument`
scan running past the line's NUL terminator. -/
inductive LineResult where
  | cont (st : SessionState)
  | retrySig (st : SessionState)
  | oobL
  deriving DecidableEq

/-- Dispatch of one NUL-terminated message line `p` by its leading
keyword (emacsclient.c:1881-1953), in the source's test order. -/
def dispatchLine (inv : Invocation) (st : SessionState) (p : List Char) :
    LineResult :=
  if strprefix "-emacs-pid ".toList p then
    .cont { st with emacs_pid := strtol10 (p.drop 10) }
  else if strprefix "-window-system-unsupported ".toList p then
    .retrySig (handleWSU st)
  else if strprefix "-print ".toList p then
    if inv.suppress_output then .cont st
    else match unquote_argument (p.drop 7) with
      | none => .oobL
      | some str =>
        .cont { st with
          stdoutS := st.stdoutS ++ (if st.skiplf then [] else ['\n']) ++ str,
          skiplf := updateSkiplf st.skiplf str }
  else if strprefix "-print-nonl ".toList p then
    if inv.suppress_output then .cont st
    else match unquote_argument (p.drop 12) with
      | none => .oobL
      | some str =>
        .cont { st with
          stdoutS := st.stdoutS ++ str,
          skiplf := updateSkiplf st.skiplf str }
  else if strprefix "-error ".toList p then
    match unquote_argument (p.drop 7) with
    | none => .oobL
    | some str =>
      .cont { st with
        stdoutS := st.stdoutS ++ (if st.skiplf then [] else ['\n']),
        stderrS := st.stderrS ++ "*ERROR*: ".toList ++ str,
        skiplf := updateSkiplf st.skiplf str,
        exitFailure := true }
  else if strprefix "-suspend ".toList p then
    .cont { st with
      stdoutS := st.stdoutS ++ (if st.skiplf then [] else ['\n']),
      skiplf := true,
      suspends := st.suspends + 1 }
  else
    .cont { st with
      stdoutS := st.stdoutS ++ (if st.skiplf then [] else ['\n'])
        ++ "*ERROR*: Unknown message: ".toList ++ p ++ ['\n'],
      skiplf := true }

/-- The newline-splitting of one received chunk (emacsclient.c:1874-1879)
with an explicit accumulator: each `\n` ends a line; a nonempty trailing
remainder without `\n` is still dispatched as a line. -/
def splitChunkGo (acc : List Char) : List Char → List (List Char)
  | [] => if acc.isEmpty then [] else [acc.reverse]
  | c :: rest =>
    if c = '\n' then acc.reverse :: splitChunkGo [] rest
    else splitChunkGo (c :: acc) rest

/-- Split a received chunk into the message lines the dispatch loop sees. -/
def splitChunk (chunk : List Char) : List (List Char) :=
  splitChunkGo [] chunk

/-- Result of the `for` loop over one chunk's lines: the chunk was fully
dispatched, or a `-window-system-unsupported` line jumped to `retry:`
(abandoning the rest of the chunk), or an out-of-bounds decode. -/
inductive ChunkResult where
  | done (st : SessionState)
  | retryChunk (st : SessionState)
  | oobC
  deriving DecidableEq

/-- Dispatch the lines of one chunk in order; `goto retry` leaves the
loop at the line that triggered it. -/
def processLines (inv : Invocation) :
    SessionState → List (List Char) → ChunkResult
  | st, [] => .done st
  | st, l :: rest =>
    match dispatchLine inv st l with
    | .cont st2 => processLines inv st2 rest
    | .retrySig st2 => .retryChunk st2
    | .oobL => .oobC

/-- Result of the receive loop: final state plus all bytes re-sent by
`goto retry` iterations, or the fatal `find_tty` failure during a retry
rebuild, or an out-of-bounds decode. -/
inductive RunOutcome where
  | ok (st : SessionState) (sent : List Char)
  | fatalTty
  | oobRead
  deriving DecidableEq

/-- Prepend bytes to the re-sent stream of an outcome. -/
def RunOutcome.prependSent (bytes : List Char) : RunOutcome → RunOutcome
  | .ok st sent => .ok st (bytes ++ sent)
  | o => o

/-- The receive loop `while (exit_status == EXIT_SUCCESS)`
(emacsclient.c:1857-1955) over a list of received chunks (the list
ending models `recv` returning 0).  The loop stops before the next
`recv` once the exit status is a failure; a `-window-system-unsupported`
line rebuilds the per-attempt stream from the new state and sends it,
then keeps receiving on the same socket. -/
def runLoop (inv : Invocation) :
    SessionState → List (List Char) → RunOutcome
  | st, [] => .ok st []
  | st, c :: rest =>
    if st.exitFailure then .ok st []
    else match processLines inv st (splitChunk c) with
      | .done st2 => runLoop inv st2 rest
      | .retryChunk st2 =>
        match buildRetry inv st2 with
        | none => .fatalTty
        | some bytes => (runLoop inv st2 rest).prependSent bytes
      | .oobC => .oobRead

theorem strprefix_self_append (pre t : List Char) :
    strprefix pre (pre ++ t) = true :=
  List.isPrefixOf_iff_prefix.mpr (List.prefix_append _ _)

theorem strprefix_false_of_take (pre s t : List Char)
    (h : (pre.take s.length).isPrefixOf s = false) :
    strprefix pre (s ++ t) = false := by
  by_contra hcon
  have htrue : strprefix pre (s ++ t) = true := by
    cases hval : strprefix pre (s ++ t)
    · exact absurd hval hcon
    · rfl
  have hp : pre <+: s ++ t := List.isPrefixOf_iff_prefix.mp htrue
  have hq : pre.take s.length <+: (s ++ t).take s.length := hp.take _
  rw [List.take_left] at hq
  rw [List.isPrefixOf_iff_prefix.mpr hq] at h
  exact Bool.noConfusion h

theorem splitChunkGo_line (rest : List Char) : ∀ (l acc : List Char),
    '\n' ∉ l →
    splitChunkGo acc (l ++ '\n' :: rest)
      = (acc.reverse ++ l) :: splitChunkGo [] rest := by
  intro l
  induction l with
  | nil =>
    intro acc _
    simp [splitChunkGo]
  | cons c l2 ih =>
    intro acc h
    have hc : c ≠ '\n' := by
      intro hceq
      exact h (by simp [hceq])
    have h2 : '\n' ∉ l2 := fun hmem => h (by simp [hmem])
    rw [List.cons_append, splitChunkGo, if_neg hc, ih (c :: acc) h2]
    simp

theorem splitChunk_single (l : List Char) (h : '\n' ∉ l) :
    splitChunk (l ++ ['\n']) = [l] := by
  unfold splitChunk
  rw [show (l ++ ['\n'] : List Char) = l ++ '\n' :: [] from rfl,
    splitChunkGo_line [] l [] h]
  simp [splitChunkGo]

/-- C2: dispatch of an `-error <text>` line decodes the text, emits a
newline to the (stdout) cursor stream when the cursor indicates mid-line,
writes the decoded text to standard error prefixed with the `*ERROR*: `
marker, updates the cursor, and sets the exit status to failure — and the
dispatch loop then continues with all remaining received messages of the
chunk rather than aborting. -/
theorem error_line_dispatch (inv : Invocation) (st : SessionState)
    (t str : List Char) (rest : List (List Char))
    (hdec : unquote_argument t = some str) :
    dispatchLine inv st ("-error ".toList ++ t) = .cont
      { st with
        stdoutS := st.stdoutS ++ (if st.skiplf then [] else ['\n']),
        stderrS := st.stderrS ++ "*ERROR*: ".toList ++ str,
        skiplf := updateSkiplf st.skiplf str,
        exitFailure := true } ∧
    processLines inv st (("-error ".toList ++ t) :: rest)
      = processLines inv
        { st with
          stdoutS := st.stdoutS ++ (if st.skiplf then [] else ['\n']),
          stderrS := st.stderrS ++ "*ERROR*: ".toList ++ str,
          skiplf := updateSkiplf st.skiplf str,
          exitFailure := true } rest := by
  have h1 : strprefix "-emacs-pid ".toList ("-error ".toList ++ t) = false :=
    strprefix_false_of_take _ _ _ (by decide)
  have h2 : strprefix "-window-system-unsupported ".toList
      ("-error ".toList ++ t) = false :=
    strprefix_false_of_take _ _ _ (by decide)
  have h3 : strprefix "-print ".toList ("-error ".toList ++ t) = false :=
    strprefix_false_of_take _ _ _ (by decide)
  have h4 : strprefix "-print-nonl ".toList ("-error ".toList ++ t) = false :=
    strprefix_false_of_take _ _ _ (by decide)
  have h5 : strprefix "-error ".toList ("-error ".toList ++ t) = true :=
    strprefix_self_append _ _
  have hdrop : ("-error ".toList ++ t).drop 7 = t := by
    rw [show (7 : Nat) = ("-error ".toList).length from rfl]
    exact List.drop_left _ _
  have hline : dispatchLine inv st ("-error ".toList ++ t) = .cont
      { st with
        stdoutS := st.stdoutS ++ (if st.skiplf then [] else ['\n']),
        stderrS := st.stderrS ++ "*ERROR*: ".toList ++ str,
        skiplf := updateSkiplf st.skiplf str,
        exitFailure := true } := by
    unfold dispatchLine
    rw [h1, h2, h3, h4, h5]
    simp only [Bool.false_eq_true, if_false, if_true, hdrop, hdec]
  exact ⟨hline, by simp only [processLines, hline]⟩

/-- The invocation of end-to-end scenario A: working directory
`/home/u/proj`, the single filename argument `notes.txt`, no usable tty,
no display, and no other flags. -/
def invScenarioA : Invocation :=
  { args := ["notes.txt".toList], tramp_prefix := none, parent_id := none,
    frame_parameters := none, eval := false, create_frame := false,
    suppress_output := false, cwd := "/home/u/proj".toList, env := [],
    ttyAvail := none, stdinLines := [] }

/-- The session state as it stands at the first send: all retry flags at
their `decode_options` defaults for a flagless invocation, cursor at line
start. -/
def stScenarioA : SessionState :=
  { nowait := false, tty := false, display := none, alt_display := none,
    skiplf := true, exitFailure := false, emacs_pid := 0, stdoutS := [],
    stderrS := [], suspends := 0 }

/-- A session state with the output cursor mid-line and some stdout text
already emitted. -/
def stMidline : SessionState :=
  { nowait := false, tty := false, display := none, alt_display := none,
    skiplf := false, exitFailure := false, emacs_pid := 0,
    stdoutS := "out".toList, stderrS := [], suspends := 0 }

/-- Closed witness for C2: from a mid-line cursor, `-error bad&ninput`
emits a separating newline, writes `*ERROR*: bad\ninput` to stderr, sets
failure status, and the following `-print-nonl` line is still
dispatched. -/
theorem error_line_dispatch_witness :
    unquote_argument "bad&ninput".toList = some "bad\ninput".toList ∧
    processLines invScenarioA stMidline
      (("-error ".toList ++ "bad&ninput".toList) :: ["-print-nonl hi".toList])
      = processLines invScenarioA
        { stMidline with
          stdoutS := stMidline.stdoutS
            ++ (if stMidline.skiplf then [] else ['\n']),
          stderrS := stMidline.stderrS ++ "*ERROR*: ".toList
            ++ "bad\ninput".toList,
          skiplf := updateSkiplf stMidline.skiplf "bad\ninput".toList,
          exitFailure := true }
        ["-print-nonl hi".toList] :=
  ⟨by decide, (error_line_dispatch invScenarioA stMidline
    "bad&ninput".toList "bad\ninput".toList ["-print-nonl hi".toList]
    (by decide)).2⟩

/-- C8: for scenario A the byte stream emitted after the auth preamble is
exactly `-dir /home/u/proj/ -current-frame -file notes.txt ` followed by
a single newline, in that token order. -/
theorem scenario_a_stream :
    initialStream invScenarioA stScenarioA
      = some "-dir /home/u/proj/ -current-frame -file notes.txt \n".toList := by
  decide

/-- C7 as amended: on a `-window-system-unsupported` line the state
transition switches to the alternate display (clearing it) when one
exists and otherwise forces terminal mode and clears no-wait; the loop
then rebuilds the *per-attempt* portion of the command stream from the
new state and re-sends it over the still-open socket before continuing to
receive — the `-env`/`-dir` prologue is not resent. -/
theorem wsu_retry_transition (inv : Invocation) (st : SessionState)
    (t : List Char) (rest : List (List Char)) (bytes : List Char)
    (ht : '\n' ∉ t)
    (hex : st.exitFailure = false)
    (hb : buildRetry inv (handleWSU st) = some bytes) :
    (∀ d, st.alt_display = some d →
      handleWSU st = { st with display := some d, alt_display := none }) ∧
    (st.alt_display = none →
      handleWSU st = { st with nowait := false, tty := true }) ∧
    runLoop inv st
      (("-window-system-unsupported ".toList ++ t ++ ['\n']) :: rest)
      = (runLoop inv (handleWSU st) rest).prependSent bytes := by
  refine ⟨?_, ?_, ?_⟩
  · intro d hd
    unfold handleWSU
    rw [hd]
  · intro hd
    unfold handleWSU
    rw [hd]
  · have hnl : '\n' ∉ "-window-system-unsupported ".toList ++ t := by
      intro hmem
      rcases List.mem_append.mp hmem with hmem | hmem
      · exact absurd hmem (by decide)
      · exact ht hmem
    have hsplit : splitChunk ("-window-system-unsupported ".toList ++ t ++ ['\n'])
        = ["-window-system-unsupported ".toList ++ t] :=
      splitChunk_single _ hnl
    have h1 : strprefix "-emacs-pid ".toList
        ("-window-system-unsupported ".toList ++ t) = false :=
      strprefix_false_of_take _ _ _ (by decide)
    have h2 : strprefix "-window-system-unsupported ".toList
        ("-window-system-unsupported ".toList ++ t) = true :=
      strprefix_self_append _ _
    have hline : dispatchLine inv st
        ("-window-system-unsupported ".toList ++ t)
        = .retrySig (handleWSU st) := by
      unfold dispatchLine
      rw [h1, h2]
      simp only [Bool.false_eq_true, if_false, if_true]
    unfold runLoop
    rw [hex]
    simp only [Bool.false_eq_true, if_false, hsplit, processLines, hline, hb]
    rw [← runLoop.eq_def]

/-- The invocation of the C7 counterexample run: one filename argument,
a usable tty, no new frame requested. -/
def invC7 : Invocation :=
  { args := ["f".toList], tramp_prefix := none, parent_id := none,
    frame_parameters := none, eval := false, create_frame := false,
    suppress_output := false, cwd := "/d".toList, env := [],
    ttyAvail := some ("t1".toList, "vt".toList), stdinLines := [] }

/-- The session state of the C7 counterexample run when the
`-window-system-unsupported` message arrives: an alternate display
candidate is configured. -/
def stC7 : SessionState :=
  { nowait := false, tty := false, display := none,
    alt_display := some "alt".toList, skiplf := true, exitFailure := false,
    emacs_pid := 0, stdoutS := [], stderrS := [], suspends := 0 }

/-- C7 counterexample: after `-window-system-unsupported` the bytes
re-sent over the socket are only the per-attempt portion of the command
stream; the entire outgoing command stream for the new state (which
starts with the `-dir` prologue) is a different, longer byte string, so
the claim that the *entire* stream is rebuilt and resent is false. -/
theorem wsu_not_entire_stream_cex :
    runLoop invC7 stC7 ["-window-system-unsupported \n".toList]
      = .ok (handleWSU stC7)
        "-current-frame -display alt -tty t1 vt -file f \n".toList ∧
    initialStream invC7 (handleWSU stC7)
      = some "-dir /d/ -current-frame -display alt -tty t1 vt -file f \n".toList ∧
    "-current-frame -display alt -tty t1 vt -file f \n".toList
      ≠ "-dir /d/ -current-frame -display alt -tty t1 vt -file f \n".toList := by
  refine ⟨by decide, by decide, by decide⟩

/-- Closed witness for the amended C7 theorem, on the counterexample run:
the re-sent bytes are exactly the per-attempt stream rebuilt from the
post-transition state. -/
theorem wsu_retry_transition_witness :
    ('\n' ∉ ([] : List Char) ∧ stC7.exitFailure = false ∧
      buildRetry invC7 (handleWSU stC7)
        = some "-current-frame -display alt -tty t1 vt -file f \n".toList) ∧
    runLoop invC7 stC7
      (("-window-system-unsupported ".toList ++ [] ++ ['\n']) :: [])
      = (runLoop invC7 (handleWSU stC7) []).prependSent
        "-current-frame -display alt -tty t1 vt -file f \n".toList :=
  ⟨⟨by decide, by decide, by decide⟩,
    (wsu_retry_transition invC7 stC7 [] []
      "-current-frame -display alt -tty t1 vt -file f \n".toList
      (by decide) (by decide) (by decide)).2.2⟩

end Emacsclient
